import Mathlib

/-!
Verification development for the change-set planner and operation executor of
this repository: the relation binding resolver for one-to-many relations
(src/src/query-builder/UpdateQueryBuilder.ts, class OneToManyUpdateBuilder),
the update executor (class UpdateQueryBuilder, method execute), the mysql
query runner transaction state machine and the sqlite driver value
conversions (the unnamed source parts).  Each definition is a shallow
embedding of the corresponding source function; doc comments name the source
location, or state when a collaborator missing from the staged sources is
modelled from the spec.
-/

/-- A primitive column value as it appears in an identifier map
(a restriction of the ObjectLiteral values that identifier columns hold). -/
inductive Value where
  | vInt (n : Int)
  | vStr (s : String)
  | vBool (b : Bool)
  | vNull
deriving DecidableEq, Repr

/-- An identifier map: identifier-column name to value.  This models the
relation id maps (ObjectLiteral values such as a category id map) that the
one-to-many builder diffs. -/
abbrev IdMap := List (String × Value)

namespace OrmUtils

/-- Modelled from the spec: OrmUtils.deepCompare is imported by
UpdateQueryBuilder.ts but its file is not among the staged sources.  Spec
section 6 provides the collaborator as a structural deep-equal over
identifier maps and section 4.2 step 5 requires a deep, order-independent
structural comparison over identifier-column values.  Two maps compare equal
when each binds exactly the keys of the other to equal values. -/
def deepCompare (a b : IdMap) : Bool :=
  a.all (fun kv => b.lookup kv.1 == some kv.2) &&
  b.all (fun kv => a.lookup kv.1 == some kv.2)

end OrmUtils

namespace EntityMetadataUtils

/-- Modelled from the spec: EntityMetadataUtils.difference is imported by
UpdateQueryBuilder.ts but its file is not among the staged sources.  Spec
section 4.2 step 4 and the many-to-many diff property of section 8 describe
it as the set difference driven by deep structural equality: the elements of
the first list that have no deep-equal counterpart in the second. -/
def difference (first second : List IdMap) : List IdMap :=
  first.filter (fun x => !(second.any (fun y => OrmUtils.deepCompare x y)))

end EntityMetadataUtils

/-- A related in-memory record as the one-to-many builder sees it.  `ref`
models JavaScript object identity (the strict-equality test
`operateSubject.entity === relatedEntity` at UpdateQueryBuilder.ts:467);
`idMap` models `relation.getRelationIdMap(relatedEntity)` at line 463, which
is undefined (`none`) when the related record is new and has no identifier
yet. -/
structure REntity where
  ref : Nat
  idMap : Option IdMap
deriving DecidableEq, Repr

/-- The value field of a change map entry: the owner subject (referenced by
its id) as pushed at UpdateQueryBuilder.ts:489-492 and 520-523, or null as
pushed at lines 545-548. -/
inductive CMValue where
  | ownerSubject (ref : Nat)
  | cmNull
deriving DecidableEq, Repr

/-- Modelled from the spec: the Subject class is imported by
UpdateQueryBuilder.ts but its file is not among the staged sources.  Spec
section 3 defines changeMaps as an ordered list of pending
`(relation, value)` assignments; `relation` here is the property path of the
inverse relation the assignment targets. -/
structure ChangeMap where
  relation : String
  value : CMValue
deriving DecidableEq, Repr

/-- Modelled from the spec: the Subject class is imported by
UpdateQueryBuilder.ts but its file is not among the staged sources.  Spec
section 3: a Subject carries the target entity instance (here its reference,
or `none` when only an identifier is known), the identifier map
(`undefined` until known), the planned-action flag the builder sets
(`canBeUpdated`, set at UpdateQueryBuilder.ts:515 and 543) and the ordered
changeMaps list. -/
structure Subject where
  metaName : String
  entityRef : Option Nat
  identifier : Option IdMap
  canBeUpdated : Bool
  changeMaps : List ChangeMap
deriving DecidableEq, Repr

namespace OneToManyUpdateBuilder

/-- The message of the error thrown at UpdateQueryBuilder.ts:480-482 when a
related entity has no identifier and no subject holds it. -/
def cannotBindMsg : String :=
  "One-to-many relation contains entities which do not exist in the database yet, thus they cannot be bind in the database. Please setup cascade insertion or save entity before binding it."

/-- Appends a change map to the first subject holding the given entity
instance: the mutation of the subject found by
`this.subjects.find(s => !!s.entity && s.entity === relatedEntity)`
(UpdateQueryBuilder.ts:466-468, mutated at lines 489-492 and 520-523). -/
def pushChangeMap (cm : ChangeMap) (eref : Nat) : List Subject → List Subject
  | [] => []
  | s :: rest =>
    if s.entityRef == some eref then
      { s with changeMaps := s.changeMaps ++ [cm] } :: rest
    else
      s :: pushChangeMap cm eref rest

/-- The fresh subject created for a new binding at
UpdateQueryBuilder.ts:513-523: no entity, identifier set to the relation id
map, canBeUpdated, and one change map binding the inverse relation to the
owner subject. -/
def newBindingSubject (invMetaName : String) (m : IdMap) (invRel : String) (ownerId : Nat) : Subject :=
  { metaName := invMetaName, entityRef := none, identifier := some m,
    canBeUpdated := true,
    changeMaps := [{ relation := invRel, value := CMValue.ownerSubject ownerId }] }

/-- The fresh subject created for an orphaned identifier at
UpdateQueryBuilder.ts:542-549: no entity, identifier set to the removed
relation id map, canBeUpdated, and one change map nulling the inverse
relation. -/
def removalSubject (invMetaName : String) (m : IdMap) (invRel : String) : Subject :=
  { metaName := invMetaName, entityRef := none, identifier := some m,
    canBeUpdated := true,
    changeMaps := [{ relation := invRel, value := CMValue.cmNull }] }

/-- The per-related-entity loop of buildForSubjectRelation
(UpdateQueryBuilder.ts:462-532).  For each related entity: find a subject
holding that entity instance; if the relation id map is unresolvable, either
push a change map onto that subject or throw; otherwise, when the id map is
not bound in the database, push a change map onto the found subject or
append a fresh subject; finally collect the id map into
relatedPersistedEntityRelationIds (line 531). -/
def processRelated (dbIds : List IdMap) (invRel invMetaName : String) (ownerId : Nat) :
    List Subject → List IdMap → List REntity → Except String (List Subject × List IdMap)
  | subjects, collected, [] => Except.ok (subjects, collected)
  | subjects, collected, e :: rest =>
    let found := subjects.any (fun s => s.entityRef == some e.ref)
    match e.idMap with
    | none =>
      if found then
        processRelated dbIds invRel invMetaName ownerId
          (pushChangeMap { relation := invRel, value := CMValue.ownerSubject ownerId } e.ref subjects)
          collected rest
      else
        Except.error cannotBindMsg
    | some m =>
      if dbIds.any (fun dbId => OrmUtils.deepCompare m dbId) then
        processRelated dbIds invRel invMetaName ownerId subjects (collected ++ [m]) rest
      else if found then
        processRelated dbIds invRel invMetaName ownerId
          (pushChangeMap { relation := invRel, value := CMValue.ownerSubject ownerId } e.ref subjects)
          (collected ++ [m]) rest
      else
        processRelated dbIds invRel invMetaName ownerId
          (subjects ++ [newBindingSubject invMetaName m invRel ownerId]) (collected ++ [m]) rest

/-- The in-memory relation collection read by
`relation.getEntityValue(subject.entity)` (UpdateQueryBuilder.ts:453):
undefined, null, or an array of related entities. -/
inductive RelColl where
  | undef
  | rnull
  | items (xs : List REntity)
deriving DecidableEq, Repr

/-- OneToManyUpdateBuilder.buildForSubjectRelation
(UpdateQueryBuilder.ts:440-551) for one subject and one relation, acting on
the shared subjects list.  `ownerId` is the owner subject reference, `invRel`
the inverse relation, `invMetaName` the inverse entity metadata name,
`dbIds` the relation id maps loaded on subject.databaseEntity (empty when
the owner is new), `coll` the in-memory collection.  A null collection is
replaced by the empty array (line 454-455); an undefined collection returns
with no work (line 456-457); after the loop, the difference between the
database ids and the collected ids yields one fresh removal subject each
(lines 535-550). -/
def buildForSubjectRelation (subjects : List Subject) (ownerId : Nat)
    (invRel invMetaName : String) (dbIds : List IdMap) (coll : RelColl) :
    Except String (List Subject) :=
  match coll with
  | RelColl.undef => Except.ok subjects
  | RelColl.rnull =>
    match processRelated dbIds invRel invMetaName ownerId subjects [] [] with
    | Except.error msg => Except.error msg
    | Except.ok (subjects1, collected) =>
      Except.ok (subjects1 ++ (EntityMetadataUtils.difference dbIds collected).map
        (fun rid => removalSubject invMetaName rid invRel))
  | RelColl.items es =>
    match processRelated dbIds invRel invMetaName ownerId subjects [] es with
    | Except.error msg => Except.error msg
    | Except.ok (subjects1, collected) =>
      Except.ok (subjects1 ++ (EntityMetadataUtils.difference dbIds collected).map
        (fun rid => removalSubject invMetaName rid invRel))

/-- One entry of subject.metadata.oneToManyRelations as the builder consumes
it (UpdateQueryBuilder.ts:420-426): the property path, the persistence
(cascade) flag checked at line 423, and the inverse relation and inverse
entity metadata used for the change maps and fresh subjects. -/
structure RelMeta where
  propertyPath : String
  persistenceEnabled : Bool
  inverseRelation : String
  inverseMetaName : String
deriving DecidableEq, Repr

/-- An owner subject as the builder's outer loop sees it: its reference, the
loaded database entity (relation property path to stored relation id maps,
none when the record is new), the in-memory relation collections of its
entity, and its one-to-many relation metadata. -/
structure OwnerSubject where
  ownerId : Nat
  databaseEntity : Option (List (String × List IdMap))
  entityRelations : List (String × RelColl)
  oneToManyRelations : List RelMeta
deriving DecidableEq, Repr

/-- The relation id maps stored on the database entity for a relation
(UpdateQueryBuilder.ts:446-449): empty when there is no database entity. -/
def dbIdsFor (owner : OwnerSubject) (rel : RelMeta) : List IdMap :=
  match owner.databaseEntity with
  | none => []
  | some dbe => (dbe.lookup rel.propertyPath).getD []

/-- The in-memory collection of a relation
(UpdateQueryBuilder.ts:453): a property absent from the entity is
undefined. -/
def collFor (owner : OwnerSubject) (rel : RelMeta) : RelColl :=
  (owner.entityRelations.lookup rel.propertyPath).getD RelColl.undef

/-- The inner forEach of OneToManyUpdateBuilder.build
(UpdateQueryBuilder.ts:420-427) over one subject's one-to-many relations:
relations whose persistenceEnabled flag is false are skipped (line 423),
the others are processed in order against the shared subjects list. -/
def buildRelations (owner : OwnerSubject) : List RelMeta → List Subject → Except String (List Subject)
  | [], subjects => Except.ok subjects
  | rel :: rest, subjects =>
    if rel.persistenceEnabled == false then
      buildRelations owner rest subjects
    else
      match buildForSubjectRelation subjects owner.ownerId rel.inverseRelation rel.inverseMetaName
          (dbIdsFor owner rel) (collFor owner rel) with
      | Except.error msg => Except.error msg
      | Except.ok subjects1 => buildRelations owner rest subjects1

/-- OneToManyUpdateBuilder.build (UpdateQueryBuilder.ts:418-429): the outer
forEach over the subjects.  Subjects appended to the shared list during the
run are not themselves visited (JavaScript forEach does not visit elements
appended during iteration), so the owners are the subjects present at
entry. -/
def build : List OwnerSubject → List Subject → Except String (List Subject)
  | [], subjects => Except.ok subjects
  | owner :: rest, subjects =>
    match buildRelations owner owner.oneToManyRelations subjects with
    | Except.error msg => Except.error msg
    | Except.ok subjects1 => build rest subjects1

/-- Two lists of identifier maps are equal as sets under deep structural
comparison: every member of each has a deep-equal counterpart in the
other. -/
def sameIdSet (a b : List IdMap) : Bool :=
  a.all (fun x => b.any (fun y => OrmUtils.deepCompare x y)) &&
  b.all (fun y => a.any (fun x => OrmUtils.deepCompare y x))
/-- Whether some two subjects of the list share the same metadata name and
the same resolved identifier: the duplicate test of the spec's
per-(type, identifier) deduplication invariant. -/
def dupIdentKey : List Subject → Bool
  | [] => false
  | s :: rest =>
    (match s.identifier with
     | some m => rest.any (fun t => t.metaName == s.metaName && t.identifier == some m)
     | none => false) || dupIdentKey rest

end OneToManyUpdateBuilder

namespace UpdateQueryBuilder

/-- A transaction operation the executor issues on its query runner. -/
inductive TxAct where
  | start
  | commit
  | rollback
deriving DecidableEq, Repr

/-- The environment of one UpdateQueryBuilder.execute call
(UpdateQueryBuilder.ts:47-111): the expressionMap flags and the query
runner transaction state read by the method, plus the outcome (none for
success, some e for a thrown error e) of each awaited operation in source
order: queryRunner.startTransaction, broadcastBeforeUpdateEvent, the update
query itself, returningResultsEntityUpdator.update,
broadcastAfterUpdateEvent, commitTransaction and rollbackTransaction. -/
structure ExecEnv where
  useTransaction : Bool
  callListeners : Bool
  hasMetadata : Bool
  updateEntity : Bool
  hasWhereEntities : Bool
  isTransactionActive : Bool
  startErr : Option Nat
  beforeErr : Option Nat
  queryErr : Option Nat
  updatorErr : Option Nat
  afterErr : Option Nat
  commitErr : Option Nat
  rollbackErr : Option Nat
deriving DecidableEq, Repr

/-- The outcomes of the guarded operations of the try block between
startTransaction and commitTransaction, in source order
(UpdateQueryBuilder.ts:59-85): the before-update broadcast (guarded by
callListeners and mainAlias metadata), the update query, the returning
results entity updator (guarded by updateEntity, metadata and a nonempty
whereEntities) and the after-update broadcast. -/
def bodyOps (env : ExecEnv) : List (Option Nat) :=
  (if env.callListeners && env.hasMetadata then [env.beforeErr] else []) ++
  [env.queryErr] ++
  (if env.updateEntity && env.hasMetadata && env.hasWhereEntities then [env.updatorErr] else []) ++
  (if env.callListeners && env.hasMetadata then [env.afterErr] else [])

/-- The first failing operation of a sequence: what the try block throws,
aborting the operations after it. -/
def firstErr : List (Option Nat) → Option Nat
  | [] => none
  | none :: rest => firstErr rest
  | some e :: _ => some e

/-- Whether this call opens the transaction: useTransaction is enabled, no
transaction is active on the runner, and startTransaction returns without
throwing, which is exactly when transactionStartedByUs is set to true
(UpdateQueryBuilder.ts:54-57). -/
def openedTx (env : ExecEnv) : Bool :=
  env.useTransaction && !env.isTransactionActive && env.startErr == none

/-- UpdateQueryBuilder.execute (UpdateQueryBuilder.ts:47-111): the returned
result or thrown error, paired with the transaction operations issued on
the query runner.  The catch block rolls back only when
transactionStartedByUs is true and swallows the rollback error, rethrowing
the original one (lines 93-101); the success path commits only when
transactionStartedByUs is true (lines 87-89).  The finally block (release
of a self-created query runner, sqljs auto-save) issues no transaction
operation and is outside the model. -/
def execute (env : ExecEnv) : Except Nat Unit × List TxAct :=
  if env.useTransaction && !env.isTransactionActive then
    match env.startErr with
    | some e => (Except.error e, [TxAct.start])
    | none =>
      match firstErr (bodyOps env) with
      | some e => (Except.error e, [TxAct.start, TxAct.rollback])
      | none =>
        match env.commitErr with
        | some e => (Except.error e, [TxAct.start, TxAct.commit, TxAct.rollback])
        | none => (Except.ok (), [TxAct.start, TxAct.commit])
  else
    match firstErr (bodyOps env) with
    | some e => (Except.error e, [])
    | none => (Except.ok (), [])

/-- The errors the environment injects into the operations the executor
awaits up to the commit; the rollback outcome is not among them, since the
catch block swallows it. -/
def injectedErrs (env : ExecEnv) : List Nat :=
  (env.startErr :: bodyOps env ++ [env.commitErr]).filterMap id

end UpdateQueryBuilder

namespace MysqlQueryRunner

/-- The observable state of a MysqlQueryRunner (part_003 lines 27 and 32):
whether the runner was released and whether a transaction is in
progress. -/
structure RState where
  isReleased : Bool
  isTransactionActive : Bool
deriving DecidableEq, Repr

/-- The errors the runner raises: TransactionAlreadyStartedError,
TransactionNotStartedError, QueryRunnerAlreadyReleasedError, and a failure
reported by the underlying driver callback. -/
inductive RunError where
  | alreadyReleased
  | alreadyStarted
  | notStarted
  | dbError (e : Nat)
deriving DecidableEq, Repr

/-- MysqlQueryRunner.query (part_003 lines 169-186): raises
QueryRunnerAlreadyReleasedError before any statement reaches the database;
otherwise the statement is issued and the driver outcome `qErr` decides the
result.  Returns the result and the statements issued. -/
def query (st : RState) (sql : String) (qErr : Option Nat) :
    Except RunError Unit × List String :=
  if st.isReleased then (Except.error RunError.alreadyReleased, [])
  else
    match qErr with
    | some e => (Except.error (RunError.dbError e), [sql])
    | none => (Except.ok (), [sql])

/-- MysqlQueryRunner.startTransaction (part_003 lines 125-134): released
guard, then TransactionAlreadyStartedError when a transaction is active;
otherwise isTransactionActive is set to true before the START TRANSACTION
statement is awaited. -/
def startTransaction (st : RState) (qErr : Option Nat) :
    RState × Except RunError Unit × List String :=
  if st.isReleased then (st, Except.error RunError.alreadyReleased, [])
  else if st.isTransactionActive then (st, Except.error RunError.alreadyStarted, [])
  else
    match query { st with isTransactionActive := true } "START TRANSACTION" qErr with
    | (r, stmts) => ({ st with isTransactionActive := true }, r, stmts)

/-- MysqlQueryRunner.commitTransaction (part_003 lines 140-149): released
guard, then TransactionNotStartedError when no transaction is active;
otherwise the COMMIT statement is awaited and isTransactionActive is reset
to false only after it succeeds. -/
def commitTransaction (st : RState) (qErr : Option Nat) :
    RState × Except RunError Unit × List String :=
  if st.isReleased then (st, Except.error RunError.alreadyReleased, [])
  else if !st.isTransactionActive then (st, Except.error RunError.notStarted, [])
  else
    match query st "COMMIT" qErr with
    | (Except.ok _, stmts) => ({ st with isTransactionActive := false }, Except.ok (), stmts)
    | (Except.error e, stmts) => (st, Except.error e, stmts)

/-- MysqlQueryRunner.rollbackTransaction (part_003 lines 155-164): same
shape as commitTransaction with the ROLLBACK statement. -/
def rollbackTransaction (st : RState) (qErr : Option Nat) :
    RState × Except RunError Unit × List String :=
  if st.isReleased then (st, Except.error RunError.alreadyReleased, [])
  else if !st.isTransactionActive then (st, Except.error RunError.notStarted, [])
  else
    match query st "ROLLBACK" qErr with
    | (Except.ok _, stmts) => ({ st with isTransactionActive := false }, Except.ok (), stmts)
    | (Except.error e, stmts) => (st, Except.error e, stmts)

/-- MysqlQueryRunner.release (part_003 lines 84-89): sets isReleased to
true, releases the pooled connection and resolves; it never fails and
issues no SQL statement. -/
def release (st : RState) : RState × Except RunError Unit × List String :=
  ({ st with isReleased := true }, Except.ok (), [])

/-- MysqlQueryRunner.insert (part_003 lines 192-203): explicit released
guard, then the built INSERT statement goes through query. -/
def insert (st : RState) (tableName : String) (qErr : Option Nat) :
    RState × Except RunError Unit × List String :=
  if st.isReleased then (st, Except.error RunError.alreadyReleased, [])
  else
    match query st ("INSERT INTO " ++ tableName) qErr with
    | (r, stmts) => (st, r, stmts)

/-- MysqlQueryRunner.update (part_003 lines 208-219): explicit released
guard, then the built UPDATE statement goes through query. -/
def update (st : RState) (tableName : String) (qErr : Option Nat) :
    RState × Except RunError Unit × List String :=
  if st.isReleased then (st, Except.error RunError.alreadyReleased, [])
  else
    match query st ("UPDATE " ++ tableName) qErr with
    | (r, stmts) => (st, r, stmts)

/-- MysqlQueryRunner.delete (part_003 lines 224-233): explicit released
guard, then the built DELETE statement goes through query. -/
def delete (st : RState) (tableName : String) (qErr : Option Nat) :
    RState × Except RunError Unit × List String :=
  if st.isReleased then (st, Except.error RunError.alreadyReleased, [])
  else
    match query st ("DELETE FROM " ++ tableName) qErr with
    | (r, stmts) => (st, r, stmts)

/-- MysqlQueryRunner.createTable (part_003 lines 369-381): explicit
released guard, then the built CREATE TABLE statement goes through
query. -/
def createTable (st : RState) (tableName : String) (qErr : Option Nat) :
    RState × Except RunError Unit × List String :=
  if st.isReleased then (st, Except.error RunError.alreadyReleased, [])
  else
    match query st ("CREATE TABLE " ++ tableName) qErr with
    | (r, stmts) => (st, r, stmts)

/-- MysqlQueryRunner.dropTable (part_003 lines 386-389): no guard of its
own; the released check of query still runs before the statement reaches
the database. -/
def dropTable (st : RState) (tableName : String) (qErr : Option Nat) :
    RState × Except RunError Unit × List String :=
  match query st ("DROP TABLE " ++ tableName) qErr with
  | (r, stmts) => (st, r, stmts)

/-- MysqlQueryRunner.truncate (part_003 lines 616-618): no guard of its
own; the released check of query still runs before the statement reaches
the database. -/
def truncate (st : RState) (tableName : String) (qErr : Option Nat) :
    RState × Except RunError Unit × List String :=
  match query st ("TRUNCATE TABLE " ++ tableName) qErr with
  | (r, stmts) => (st, r, stmts)

/-- One state-changing operation of the runner, with the argument it
needs. -/
inductive ROp where
  | opQuery (sql : String)
  | opInsert (tableName : String)
  | opUpdate (tableName : String)
  | opDelete (tableName : String)
  | opCreateTable (tableName : String)
  | opDropTable (tableName : String)
  | opTruncate (tableName : String)
  | opStartTransaction
  | opCommitTransaction
  | opRollbackTransaction
  | opRelease
deriving DecidableEq, Repr

/-- Dispatch of one runner operation with the driver outcome of its
statement. -/
def step (st : RState) : ROp → Option Nat → RState × Except RunError Unit × List String
  | ROp.opQuery sql, qErr =>
    match query st sql qErr with
    | (r, stmts) => (st, r, stmts)
  | ROp.opInsert t, qErr => insert st t qErr
  | ROp.opUpdate t, qErr => update st t qErr
  | ROp.opDelete t, qErr => delete st t qErr
  | ROp.opCreateTable t, qErr => createTable st t qErr
  | ROp.opDropTable t, qErr => dropTable st t qErr
  | ROp.opTruncate t, qErr => truncate st t qErr
  | ROp.opStartTransaction, qErr => startTransaction st qErr
  | ROp.opCommitTransaction, qErr => commitTransaction st qErr
  | ROp.opRollbackTransaction, qErr => rollbackTransaction st qErr
  | ROp.opRelease, _ => release st

/-- A sequence of runner operations: the final state, every statement
issued to the database, and the result of each operation in order. -/
def runSeq : RState → List (ROp × Option Nat) →
    RState × List String × List (Except RunError Unit)
  | st, [] => (st, [], [])
  | st, (op, qErr) :: rest =>
    let s := step st op qErr
    let t := runSeq s.1 rest
    (t.1, s.2.2 ++ t.2.1, s.2.1 :: t.2.2)

end MysqlQueryRunner

namespace SqliteDriver

/-- A JavaScript value as the driver conversion functions see it: undefined,
null, a boolean, a whole number, a string, an array or a plain object. -/
inductive JsVal where
  | undef
  | jnull
  | jbool (b : Bool)
  | jnum (n : Int)
  | jstr (s : String)
  | jarr (elems : List JsVal)
  | jobj (fields : List (String × JsVal))

/-- The opening brace character, kept out of string literals. -/
def lbrace : Char := Char.ofNat 123

/-- The closing brace character, kept out of string literals. -/
def rbrace : Char := Char.ofNat 125

/-- Decimal digits of a natural number, most significant first: the digit
run JSON.stringify emits for a whole number. -/
def natDigits (n : Nat) : List Char :=
  if h : n < 10 then [Char.ofNat (48 + n)]
  else natDigits (n / 10) ++ [Char.ofNat (48 + n % 10)]
decreasing_by exact Nat.div_lt_self (by omega) (by omega)

/-- The characters JSON.stringify emits for an integer. -/
def intChars (n : Int) : List Char :=
  if n < 0 then '-' :: natDigits n.natAbs else natDigits n.natAbs

mutual

/-- Modelled from the host platform: JSON.stringify of a value, as the
character list it emits.  Strings are emitted verbatim between quotes (the
modelled fragment holds no character needing an escape sequence, see
strSafe); undefined, for which JSON.stringify returns no string, is given
the junk output [] and is excluded by jsonSafe. -/
def jsonChars : JsVal → List Char
  | JsVal.undef => []
  | JsVal.jnull => ['n', 'u', 'l', 'l']
  | JsVal.jbool true => ['t', 'r', 'u', 'e']
  | JsVal.jbool false => ['f', 'a', 'l', 's', 'e']
  | JsVal.jnum n => intChars n
  | JsVal.jstr s => '"' :: s.toList ++ ['"']
  | JsVal.jarr xs => '[' :: elemsChars xs ++ [']']
  | JsVal.jobj kvs => lbrace :: fieldsChars kvs ++ [rbrace]

/-- Comma-separated renderings of array elements. -/
def elemsChars : List JsVal → List Char
  | [] => []
  | [x] => jsonChars x
  | x :: y :: rest => jsonChars x ++ ',' :: elemsChars (y :: rest)

/-- Comma-separated key:value renderings of object fields. -/
def fieldsChars : List (String × JsVal) → List Char
  | [] => []
  | [(k, v)] => '"' :: k.toList ++ '"' :: ':' :: jsonChars v
  | (k, v) :: g :: rest =>
    '"' :: k.toList ++ '"' :: ':' :: jsonChars v ++ ',' :: fieldsChars (g :: rest)

end

/-- A string of the modelled JSON fragment: no double quote and no
backslash, so JSON.stringify emits it verbatim and JSON.parse reads it back
verbatim. -/
def strSafe (s : String) : Bool :=
  s.toList.all (fun c => !(c = '"' || c = '\\'))

mutual

/-- A value of the modelled JSON-serializable fragment: no undefined
anywhere, and every string free of characters needing escapes. -/
def jsonSafe : JsVal → Bool
  | JsVal.undef => false
  | JsVal.jnull => true
  | JsVal.jbool _ => true
  | JsVal.jnum _ => true
  | JsVal.jstr s => strSafe s
  | JsVal.jarr xs => elemsSafe xs
  | JsVal.jobj kvs => fieldsSafe kvs

/-- Every element of the list is in the fragment. -/
def elemsSafe : List JsVal → Bool
  | [] => true
  | x :: rest => jsonSafe x && elemsSafe rest

/-- Every field of the list has a safe key and a value in the fragment. -/
def fieldsSafe : List (String × JsVal) → Bool
  | [] => true
  | (k, v) :: rest => strSafe k && jsonSafe v && fieldsSafe rest

end

/-- Reads string content up to the closing quote (no escape handling in
the modelled fragment). -/
def parseStrChars : List Char → Option (List Char × List Char)
  | [] => none
  | c :: rest =>
    if c = '"' then some ([], rest)
    else
      match parseStrChars rest with
      | some (s, r) => some (c :: s, r)
      | none => none

/-- Greedily reads a run of decimal digits. -/
def readDigits : List Char → List Char × List Char
  | [] => ([], [])
  | c :: rest =>
    if c.isDigit then
      match readDigits rest with
      | (ds, r) => (c :: ds, r)
    else ([], c :: rest)

/-- The natural number a digit run denotes. -/
def digitsVal (ds : List Char) : Nat :=
  ds.foldl (fun acc c => acc * 10 + (c.toNat - 48)) 0

/-- Whether a character list does not begin with a digit, so that a digit
run followed by it parses back to exactly that run. -/
def numSafeHead : List Char → Bool
  | [] => true
  | c :: _ => !c.isDigit

/-- Reads an optionally negated decimal integer. -/
def parseNum : List Char → Option (Int × List Char)
  | [] => none
  | c :: rest =>
    if c = '-' then
      let p := readDigits rest
      if p.1 = [] then none else some (-(digitsVal p.1 : Int), p.2)
    else
      let p := readDigits (c :: rest)
      if p.1 = [] then none else some ((digitsVal p.1 : Int), p.2)

mutual

/-- Modelled from the host platform: JSON.parse as a fuel-indexed recursive
descent over the emitted grammar (no whitespace skipping: the modelled
stringify emits none). -/
def parseVal : Nat → List Char → Option (JsVal × List Char)
  | 0, _ => none
  | fuel + 1, cs =>
    match cs with
    | [] => none
    | c :: rest =>
      if c = 'n' then
        match rest with
        | 'u' :: 'l' :: 'l' :: r => some (JsVal.jnull, r)
        | _ => none
      else if c = 't' then
        match rest with
        | 'r' :: 'u' :: 'e' :: r => some (JsVal.jbool true, r)
        | _ => none
      else if c = 'f' then
        match rest with
        | 'a' :: 'l' :: 's' :: 'e' :: r => some (JsVal.jbool false, r)
        | _ => none
      else if c = '"' then
        match parseStrChars rest with
        | some (s, r) => some (JsVal.jstr (String.mk s), r)
        | none => none
      else if c = '[' then
        match rest with
        | [] => none
        | d :: r2 =>
          if d = ']' then some (JsVal.jarr [], r2)
          else
            match parseElems fuel (d :: r2) with
            | some (xs, r) => some (JsVal.jarr xs, r)
            | none => none
      else if c = lbrace then
        match rest with
        | [] => none
        | d :: r2 =>
          if d = rbrace then some (JsVal.jobj [], r2)
          else
            match parseFields fuel (d :: r2) with
            | some (kvs, r) => some (JsVal.jobj kvs, r)
            | none => none
      else
        match parseNum (c :: rest) with
        | some (n, r) => some (JsVal.jnum n, r)
        | none => none

/-- Parses one or more comma-separated values up to the closing bracket. -/
def parseElems : Nat → List Char → Option (List JsVal × List Char)
  | 0, _ => none
  | fuel + 1, cs =>
    match parseVal fuel cs with
    | some (v, r) =>
      match r with
      | [] => none
      | d :: r2 =>
        if d = ',' then
          match parseElems fuel r2 with
          | some (vs, r3) => some (v :: vs, r3)
          | none => none
        else if d = ']' then some ([v], r2)
        else none
    | none => none

/-- Parses one or more comma-separated key:value fields up to the closing
brace. -/
def parseFields : Nat → List Char → Option (List (String × JsVal) × List Char)
  | 0, _ => none
  | fuel + 1, cs =>
    match cs with
    | '"' :: rest =>
      match parseStrChars rest with
      | some (k, r) =>
        match r with
        | ':' :: r2 =>
          match parseVal fuel r2 with
          | some (v, r3) =>
            match r3 with
            | [] => none
            | d :: r4 =>
              if d = ',' then
                match parseFields fuel r4 with
                | some (kvs, r5) => some ((String.mk k, v) :: kvs, r5)
                | none => none
              else if d = rbrace then some ([(String.mk k, v)], r4)
              else none
          | none => none
        | _ => none
      | none => none
    | _ => none

end

/-- Modelled from the host platform: JSON.stringify restricted to the safe
fragment. -/
def jsonStringify (v : JsVal) : String :=
  String.mk (jsonChars v)

/-- Modelled from the host platform: JSON.parse, requiring the whole string
to be consumed.  The fuel bound exceeds what any value serialized into the
string can need. -/
def jsonParse (s : String) : Option JsVal :=
  match parseVal (s.toList.length + 1) s.toList with
  | some (v, []) => some v
  | _ => none

/-- JavaScript truthiness restricted to the modelled value domain:
undefined, null, 0 and the empty string are falsy; arrays and objects are
truthy. -/
def truthy : JsVal → Bool
  | JsVal.undef => false
  | JsVal.jnull => false
  | JsVal.jbool b => b
  | JsVal.jnum n => !(n == 0)
  | JsVal.jstr s => !(s == "")
  | JsVal.jarr _ => true
  | JsVal.jobj _ => true

/-- The column types the driver conversion claim covers: the Boolean
constructor type, the literal json type, and any other type for which both
conversions return the value unchanged.  The date, time, datetime and
simple-array branches delegate to the DataUtils collaborator, which is
absent from the staged sources, and are outside this model. -/
inductive ColType where
  | boolean
  | json
  | other
deriving DecidableEq, Repr

/-- SqliteDriver.preparePersistentValue (part_004 lines 184-208) restricted
to the modelled column types: null and undefined pass through the guard at
lines 185-186; boolean columns persist 1 exactly when the value is
strictly equal to true, else 0 (line 189); json columns persist
JSON.stringify of the value (line 201); other types return the value
unchanged. -/
def preparePersistentValue : JsVal → ColType → JsVal
  | JsVal.jnull, _ => JsVal.jnull
  | JsVal.undef, _ => JsVal.undef
  | v, ColType.boolean =>
    match v with
    | JsVal.jbool true => JsVal.jnum 1
    | _ => JsVal.jnum 0
  | v, ColType.json => JsVal.jstr (jsonStringify v)
  | v, ColType.other => v

/-- SqliteDriver.prepareHydratedValue (part_004 lines 213-234) restricted
to the modelled column types: boolean columns hydrate by truthiness
(line 215); json columns hydrate through JSON.parse (line 227), whose
throw on unparsable input is the error result; JSON.parse coerces a null
argument to the string null before parsing; a non-string, non-null
argument is outside the modelled coercions and is an error here; other
types return the value unchanged. -/
def prepareHydratedValue : JsVal → ColType → Except String JsVal
  | v, ColType.boolean => Except.ok (JsVal.jbool (truthy v))
  | v, ColType.json =>
    match v with
    | JsVal.jstr s =>
      match jsonParse s with
      | some j => Except.ok j
      | none => Except.error "JSON.parse: unexpected end of input"
    | JsVal.jnull =>
      match jsonParse "null" with
      | some j => Except.ok j
      | none => Except.error "JSON.parse: unexpected end of input"
    | _ => Except.error "JSON.parse: unsupported input"
  | v, ColType.other => Except.ok v

end SqliteDriver

namespace OneToManyUpdateBuilder

/-- When every related entity's id map is bound in the database, the loop
changes no subject and only collects the id maps. -/
theorem processRelated_all_bound (dbIds : List IdMap) (invRel invMetaName : String)
    (ownerId : Nat) (subjects : List Subject) (collected : List IdMap) (es : List REntity)
    (h : ∀ e ∈ es, ∃ m, e.idMap = some m ∧
      dbIds.any (fun d => OrmUtils.deepCompare m d) = true) :
    processRelated dbIds invRel invMetaName ownerId subjects collected es =
      Except.ok (subjects, collected ++ es.filterMap REntity.idMap) := by
  induction es generalizing collected with
  | nil => simp [processRelated]
  | cons e rest ih =>
    obtain ⟨m, hm, hd⟩ := h e (by simp)
    rw [processRelated, hm]
    simp only [hd, if_true]
    rw [ih _ (fun x hx => h x (by simp [hx]))]
    simp [hm, List.filterMap_cons, List.append_assoc]

/-- The difference is empty when every element of the first list has a
deep-equal counterpart in the second. -/
theorem difference_eq_nil (first second : List IdMap)
    (h : ∀ a ∈ first, second.any (fun y => OrmUtils.deepCompare a y) = true) :
    EntityMetadataUtils.difference first second = [] := by
  rw [EntityMetadataUtils.difference, List.filter_eq_nil_iff]
  intro a ha
  simp [h a ha]

/-- Unfolding buildForSubjectRelation on an array collection once the loop
result is known: the subjects the loop produced, followed by one fresh
removal subject per identifier of the database set with no deep-equal
counterpart among the collected identifiers. -/
theorem buildForSubjectRelation_items_eq (subjects : List Subject) (ownerId : Nat)
    (invRel invMetaName : String) (dbIds : List IdMap) (es : List REntity)
    (subjects1 : List Subject) (collected : List IdMap)
    (h : processRelated dbIds invRel invMetaName ownerId subjects [] es =
      Except.ok (subjects1, collected)) :
    buildForSubjectRelation subjects ownerId invRel invMetaName dbIds (RelColl.items es) =
      Except.ok (subjects1 ++ (EntityMetadataUtils.difference dbIds collected).map
        (fun rid => removalSubject invMetaName rid invRel)) := by
  rw [buildForSubjectRelation, h]

/-- C2.  If every related record in the in-memory collection resolves an
identifier map and the database set and the in-memory set of identifier maps
are equal as sets under deep structural comparison, then
buildForSubjectRelation leaves the subjects list exactly as it was: it
produces zero changeMaps for the relation and creates no new Subjects. -/
theorem c2_equal_sets_no_changes (subjects : List Subject) (ownerId : Nat)
    (invRel invMetaName : String) (dbIds : List IdMap) (es : List REntity)
    (hres : ∀ e ∈ es, (REntity.idMap e).isSome = true)
    (hset : sameIdSet dbIds (es.filterMap REntity.idMap) = true) :
    buildForSubjectRelation subjects ownerId invRel invMetaName dbIds (RelColl.items es) =
      Except.ok subjects := by
  rw [sameIdSet, Bool.and_eq_true, List.all_eq_true, List.all_eq_true] at hset
  obtain ⟨hfwd, hbwd⟩ := hset
  rw [buildForSubjectRelation_items_eq subjects ownerId invRel invMetaName dbIds es
    subjects ([] ++ es.filterMap REntity.idMap)
    (processRelated_all_bound dbIds invRel invMetaName ownerId subjects [] es (by
      intro e he
      obtain ⟨m, hm⟩ := Option.isSome_iff_exists.mp (hres e he)
      exact ⟨m, hm, hbwd m (List.mem_filterMap.mpr ⟨e, he, hm⟩)⟩))]
  rw [difference_eq_nil dbIds _ (by simpa using hfwd)]
  simp

/-- Closed witness for c2_equal_sets_no_changes: one related entity whose
identifier map equals the single stored identifier map; the subjects list
comes back unchanged. -/
theorem c2_equal_sets_no_changes_witness :
    buildForSubjectRelation
        [{ metaName := "Post", entityRef := some 0,
           identifier := some [("id", Value.vInt 7)],
           canBeUpdated := false, changeMaps := [] }]
        0 "post" "Category" [[("id", Value.vInt 1)]]
        (RelColl.items [⟨1, some [("id", Value.vInt 1)]⟩]) =
      Except.ok
        [{ metaName := "Post", entityRef := some 0,
           identifier := some [("id", Value.vInt 7)],
           canBeUpdated := false, changeMaps := [] }] :=
  c2_equal_sets_no_changes _ 0 "post" "Category" _ _ (by decide) (by decide)

/-- C3.  A null relation collection is treated as remove-all: the after set
is empty, so every identifier stored in the database yields one fresh
removal subject whose changeMap nulls the inverse relation; an undefined
collection is treated as no-change: the subjects list is returned
untouched. -/
theorem c3_null_removes_all_undefined_skips (subjects : List Subject) (ownerId : Nat)
    (invRel invMetaName : String) (dbIds : List IdMap) :
    buildForSubjectRelation subjects ownerId invRel invMetaName dbIds RelColl.rnull =
      Except.ok (subjects ++ dbIds.map (fun rid => removalSubject invMetaName rid invRel)) ∧
    buildForSubjectRelation subjects ownerId invRel invMetaName dbIds RelColl.undef =
      Except.ok subjects := by
  constructor
  · rw [buildForSubjectRelation, processRelated]
    simp [EntityMetadataUtils.difference]
  · rfl

/-- C4.  A related entity whose identifier map cannot be resolved (a new
related record): when no subject holds that entity instance, the build fails
with the cascade-insertion error; when some subject holds it, a changeMap
binding the inverse relation to the owner subject is pushed onto the first
such subject and processing continues unchanged, raising no error for this
entity. -/
theorem c4_unresolvable_id (subjects : List Subject) (ownerId : Nat)
    (invRel invMetaName : String) (dbIds : List IdMap) (e : REntity) (rest : List REntity)
    (hnew : e.idMap = none) :
    ((subjects.any (fun s => s.entityRef == some e.ref)) = false →
      buildForSubjectRelation subjects ownerId invRel invMetaName dbIds
        (RelColl.items (e :: rest)) = Except.error cannotBindMsg) ∧
    ((subjects.any (fun s => s.entityRef == some e.ref)) = true →
      buildForSubjectRelation subjects ownerId invRel invMetaName dbIds
          (RelColl.items (e :: rest)) =
        buildForSubjectRelation
          (pushChangeMap { relation := invRel, value := CMValue.ownerSubject ownerId }
            e.ref subjects)
          ownerId invRel invMetaName dbIds (RelColl.items rest)) := by
  constructor
  · intro hfound
    rw [buildForSubjectRelation, processRelated, hnew]
    simp [hfound]
  · intro hfound
    rw [buildForSubjectRelation, buildForSubjectRelation, processRelated, hnew]
    simp [hfound]

/-- Closed witness for c4_unresolvable_id at a concrete input: one new
related entity with no identifier, checked against an empty subjects list
(error branch) and against a subjects list holding the entity (changeMap
branch). -/
theorem c4_unresolvable_id_witness :
    ((([] : List Subject).any (fun s => s.entityRef == some 5)) = false →
      buildForSubjectRelation [] 7 "post" "Category" [] (RelColl.items [⟨5, none⟩]) =
        Except.error cannotBindMsg) ∧
    ((([{ metaName := "Category", entityRef := some 5, identifier := none,
          canBeUpdated := false, changeMaps := [] }] : List Subject).any
        (fun s => s.entityRef == some 5)) = true →
      buildForSubjectRelation
          [{ metaName := "Category", entityRef := some 5, identifier := none,
             canBeUpdated := false, changeMaps := [] }]
          7 "post" "Category" [] (RelColl.items [⟨5, none⟩]) =
        buildForSubjectRelation
          (pushChangeMap { relation := "post", value := CMValue.ownerSubject 7 } 5
            [{ metaName := "Category", entityRef := some 5, identifier := none,
               canBeUpdated := false, changeMaps := [] }])
          7 "post" "Category" [] (RelColl.items [])) :=
  ⟨(c4_unresolvable_id [] 7 "post" "Category" [] ⟨5, none⟩ [] rfl).1,
   (c4_unresolvable_id
      [{ metaName := "Category", entityRef := some 5, identifier := none,
         canBeUpdated := false, changeMaps := [] }]
      7 "post" "Category" [] ⟨5, none⟩ [] rfl).2⟩

end OneToManyUpdateBuilder

namespace OneToManyUpdateBuilder

/-- C5 counterexample.  A subject for the orphaned related record (type
Category, identifier id=1) already exists, the database holds that
identifier and the in-memory collection is empty; the resolver still
appends a second, fresh subject for the same record, so the claim that a
Subject is created only if none already exists is false at this input. -/
theorem c5_counterexample :
    buildForSubjectRelation
        [{ metaName := "Category", entityRef := none,
           identifier := some [("id", Value.vInt 1)],
           canBeUpdated := true, changeMaps := [] }]
        0 "post" "Category" [[("id", Value.vInt 1)]] (RelColl.items []) =
      Except.ok
        [{ metaName := "Category", entityRef := none,
           identifier := some [("id", Value.vInt 1)],
           canBeUpdated := true, changeMaps := [] },
         removalSubject "Category" [("id", Value.vInt 1)] "post"] ∧
    List.countP
      (fun s => s.metaName == "Category" && s.identifier == some [("id", Value.vInt 1)])
      [{ metaName := "Category", entityRef := none,
         identifier := some [("id", Value.vInt 1)],
         canBeUpdated := true, changeMaps := [] },
       removalSubject "Category" [("id", Value.vInt 1)] "post"] = 2 := by
  constructor
  · rfl
  · rfl

/-- C5 as amended.  For every identifier stored in the database with no
deep-equal counterpart among the collected in-memory identifiers, the
resolver unconditionally appends a fresh Subject carrying the nulling
changeMap, without checking whether a subject for that record already
exists: the output is the loop result followed by one removal subject per
removed identifier, it contains the removal subject for the given removed
identifier, and it holds strictly more subjects keyed by that
(type, identifier) than the loop result did. -/
theorem c5_orphan_removal_always_fresh (subjects : List Subject) (ownerId : Nat)
    (invRel invMetaName : String) (dbIds : List IdMap) (es : List REntity)
    (subjects1 : List Subject) (collected : List IdMap) (m : IdMap)
    (h : processRelated dbIds invRel invMetaName ownerId subjects [] es =
      Except.ok (subjects1, collected))
    (hm : m ∈ EntityMetadataUtils.difference dbIds collected) :
    buildForSubjectRelation subjects ownerId invRel invMetaName dbIds (RelColl.items es) =
      Except.ok (subjects1 ++ (EntityMetadataUtils.difference dbIds collected).map
        (fun rid => removalSubject invMetaName rid invRel)) ∧
    removalSubject invMetaName m invRel ∈
      subjects1 ++ (EntityMetadataUtils.difference dbIds collected).map
        (fun rid => removalSubject invMetaName rid invRel) ∧
    subjects1.countP (fun s => s.metaName == invMetaName && s.identifier == some m) + 1 ≤
      (subjects1 ++ (EntityMetadataUtils.difference dbIds collected).map
        (fun rid => removalSubject invMetaName rid invRel)).countP
        (fun s => s.metaName == invMetaName && s.identifier == some m) := by
  refine ⟨buildForSubjectRelation_items_eq subjects ownerId invRel invMetaName dbIds es
    subjects1 collected h, ?_, ?_⟩
  · exact List.mem_append_right _ (List.mem_map.mpr ⟨m, hm, rfl⟩)
  · rw [List.countP_append]
    have hpos : 0 < ((EntityMetadataUtils.difference dbIds collected).map
        (fun rid => removalSubject invMetaName rid invRel)).countP
        (fun s => s.metaName == invMetaName && s.identifier == some m) :=
      List.countP_pos_iff.mpr
        ⟨removalSubject invMetaName m invRel, List.mem_map.mpr ⟨m, hm, rfl⟩,
          by simp [removalSubject]⟩
    omega

/-- Closed witness for c5_orphan_removal_always_fresh: the database holds
identifier id=9, the in-memory collection is empty, so id=9 is orphaned. -/
theorem c5_orphan_removal_always_fresh_witness :
    buildForSubjectRelation [] 3 "post" "Category" [[("id", Value.vInt 9)]]
        (RelColl.items []) =
      Except.ok ([] ++ (EntityMetadataUtils.difference [[("id", Value.vInt 9)]] []).map
        (fun rid => removalSubject "Category" rid "post")) ∧
    removalSubject "Category" [("id", Value.vInt 9)] "post" ∈
      [] ++ (EntityMetadataUtils.difference [[("id", Value.vInt 9)]] []).map
        (fun rid => removalSubject "Category" rid "post") ∧
    List.countP
        (fun s => s.metaName == "Category" && s.identifier == some [("id", Value.vInt 9)])
        ([] : List Subject) + 1 ≤
      (([] : List Subject) ++
        (EntityMetadataUtils.difference [[("id", Value.vInt 9)]] []).map
          (fun rid => removalSubject "Category" rid "post")).countP
        (fun s => s.metaName == "Category" && s.identifier == some [("id", Value.vInt 9)]) :=
  c5_orphan_removal_always_fresh [] 3 "post" "Category" [[("id", Value.vInt 9)]] []
    [] [] [("id", Value.vInt 9)] rfl (by decide)

/-- C6 counterexample.  Starting from a subjects list with no duplicate
(type, identifier) key, one run of buildForSubjectRelation over a collection
holding two distinct new entity instances that resolve the same identifier
map produces two Subjects with the same (Category, id=1) key: the
deduplication invariant is not preserved. -/
theorem c6_counterexample :
    dupIdentKey [] = false ∧
    buildForSubjectRelation [] 0 "post" "Category" []
        (RelColl.items [⟨1, some [("id", Value.vInt 1)]⟩, ⟨2, some [("id", Value.vInt 1)]⟩]) =
      Except.ok
        [newBindingSubject "Category" [("id", Value.vInt 1)] "post" 0,
         newBindingSubject "Category" [("id", Value.vInt 1)] "post" 0] ∧
    dupIdentKey
        [newBindingSubject "Category" [("id", Value.vInt 1)] "post" 0,
         newBindingSubject "Category" [("id", Value.vInt 1)] "post" 0] = true := by
  exact ⟨rfl, rfl, rfl⟩

/-- C6 as amended.  Subject reuse in the resolver is keyed on entity
instance identity only: when a related entity resolves an identifier map
with no deep-equal counterpart in the database and no subject holds that
entity instance, a fresh Subject keyed by that identifier is appended
without consulting the (type, identifier) keys of the existing subjects, so
the per-(type, identifier) deduplication invariant is not preserved by the
relation binding resolver. -/
theorem c6_binding_appends_without_dedup (dbIds : List IdMap)
    (invRel invMetaName : String) (ownerId : Nat) (subjects : List Subject)
    (collected : List IdMap) (e : REntity) (rest : List REntity) (m : IdMap)
    (hm : e.idMap = some m)
    (hnotdb : dbIds.any (fun dbId => OrmUtils.deepCompare m dbId) = false)
    (hnotfound : subjects.any (fun s => s.entityRef == some e.ref) = false) :
    processRelated dbIds invRel invMetaName ownerId subjects collected (e :: rest) =
      processRelated dbIds invRel invMetaName ownerId
        (subjects ++ [newBindingSubject invMetaName m invRel ownerId])
        (collected ++ [m]) rest := by
  rw [processRelated, hm]
  simp [hnotdb, hnotfound]

/-- Closed witness for c6_binding_appends_without_dedup: a new entity
instance (reference 4) resolving identifier id=2, no database binding and no
subject holding the instance, although a subject with the same
(Category, id=2) key is already present. -/
theorem c6_binding_appends_without_dedup_witness :
    processRelated [] "post" "Category" 0
        [{ metaName := "Category", entityRef := none,
           identifier := some [("id", Value.vInt 2)],
           canBeUpdated := true, changeMaps := [] }]
        [] [⟨4, some [("id", Value.vInt 2)]⟩] =
      processRelated [] "post" "Category" 0
        ([{ metaName := "Category", entityRef := none,
            identifier := some [("id", Value.vInt 2)],
            canBeUpdated := true, changeMaps := [] }] ++
          [newBindingSubject "Category" [("id", Value.vInt 2)] "post" 0])
        ([] ++ [[("id", Value.vInt 2)]]) [] :=
  c6_binding_appends_without_dedup [] "post" "Category" 0
    [{ metaName := "Category", entityRef := none,
       identifier := some [("id", Value.vInt 2)],
       canBeUpdated := true, changeMaps := [] }]
    [] ⟨4, some [("id", Value.vInt 2)]⟩ [] [("id", Value.vInt 2)] rfl rfl rfl

end OneToManyUpdateBuilder

namespace OneToManyUpdateBuilder

/-- buildRelations reads only the owner reference, the database entity and
the entity relation collections, so replacing the stored relation metadata
list leaves it unchanged. -/
theorem buildRelations_replace_relations (owner : OwnerSubject) (rl : List RelMeta)
    (rels : List RelMeta) (subjects : List Subject) :
    buildRelations { owner with oneToManyRelations := rl } rels subjects =
      buildRelations owner rels subjects := by
  induction rels generalizing subjects with
  | nil => rfl
  | cons rel rest ih =>
    rw [buildRelations, buildRelations]
    by_cases h : rel.persistenceEnabled
    · simp only [h]
      cases hb : buildForSubjectRelation subjects owner.ownerId rel.inverseRelation
          rel.inverseMetaName (dbIdsFor owner rel) (collFor owner rel) with
      | error msg =>
        simp [dbIdsFor, collFor] at hb ⊢
        simp [hb]
      | ok subjects1 =>
        simp [dbIdsFor, collFor] at hb ⊢
        simp [hb, ih]
    · simp [h, ih]

/-- Skipping the relations whose persistence flag is disabled changes
nothing: processing a relation list equals processing its
persistence-enabled sublist. -/
theorem buildRelations_filter_persistence (owner : OwnerSubject) (rels : List RelMeta)
    (subjects : List Subject) :
    buildRelations owner (rels.filter (fun r => r.persistenceEnabled)) subjects =
      buildRelations owner rels subjects := by
  induction rels generalizing subjects with
  | nil => rfl
  | cons rel rest ih =>
    by_cases h : rel.persistenceEnabled
    · rw [List.filter_cons_of_pos h, buildRelations, buildRelations]
      simp only [h]
      cases hb : buildForSubjectRelation subjects owner.ownerId rel.inverseRelation
          rel.inverseMetaName (dbIdsFor owner rel) (collFor owner rel) with
      | error msg => simp
      | ok subjects1 => simp [ih]
    · rw [List.filter_cons_of_neg (by simp [h]), buildRelations]
      simp [h, ih]

/-- C7.  Relations whose persistence (cascade) flag is disabled are left
untouched by the relation-operation builder: erasing every disabled relation
from every subject before the run yields exactly the same result, so a
disabled relation contributes no changeMaps and no Subjects (its stored
database value is preserved), while all other relations are still processed
in order. -/
theorem c7_disabled_relations_untouched (owners : List OwnerSubject)
    (subjects : List Subject) :
    build (owners.map (fun o =>
        { o with oneToManyRelations :=
            o.oneToManyRelations.filter (fun r => r.persistenceEnabled) })) subjects =
      build owners subjects := by
  induction owners generalizing subjects with
  | nil => rfl
  | cons owner rest ih =>
    rw [List.map_cons, build, build]
    have hrw :
        buildRelations
            { owner with oneToManyRelations :=
                owner.oneToManyRelations.filter (fun r => r.persistenceEnabled) }
            (owner.oneToManyRelations.filter (fun r => r.persistenceEnabled)) subjects =
          buildRelations owner owner.oneToManyRelations subjects := by
      rw [buildRelations_replace_relations, buildRelations_filter_persistence]
    simp only [hrw]
    cases hb : buildRelations owner owner.oneToManyRelations subjects with
    | error msg => rfl
    | ok subjects1 => simp [ih]

end OneToManyUpdateBuilder

namespace UpdateQueryBuilder

/-- The first failing outcome is one of the outcomes of the sequence. -/
theorem firstErr_mem {l : List (Option Nat)} {e : Nat} (h : firstErr l = some e) :
    some e ∈ l := by
  induction l with
  | nil => simp [firstErr] at h
  | cons o rest ih =>
    cases o with
    | none =>
      rw [firstErr] at h
      exact List.mem_cons_of_mem _ (ih h)
    | some x =>
      rw [firstErr] at h
      simp only [Option.some.injEq] at h
      subst h
      exact List.mem_cons_self _ _

end UpdateQueryBuilder

namespace UpdateQueryBuilder

/-- C1.  For every execution of UpdateQueryBuilder.execute: a thrown error
is one of the errors of the awaited operations (propagated, never replaced
by the swallowed rollback outcome); when this call opened the transaction a
rollback is issued before the error propagates; when the transaction was
pre-existing on the runner no rollback is issued; and on success a commit
is issued if and only if this call opened the transaction. -/
theorem c1_transaction_ownership (env : ExecEnv) :
    (∀ e : Nat, (execute env).1 = Except.error e →
      e ∈ injectedErrs env ∧
      (openedTx env = true → TxAct.rollback ∈ (execute env).2) ∧
      (env.isTransactionActive = true → TxAct.rollback ∉ (execute env).2)) ∧
    ((execute env).1 = Except.ok () →
      (TxAct.commit ∈ (execute env).2 ↔ openedTx env = true)) := by
  by_cases h1 : (env.useTransaction && !env.isTransactionActive) = true
  · have hact : env.isTransactionActive = false := by
      simp only [Bool.and_eq_true] at h1
      simpa using h1.2
    cases hs : env.startErr with
    | some e0 =>
      rw [execute, if_pos h1, hs]
      refine ⟨?_, by simp⟩
      intro e he
      simp only [Except.error.injEq] at he
      subst he
      refine ⟨by simp [injectedErrs, hs], ?_, by simp [hact]⟩
      intro hop
      rw [openedTx, hs] at hop
      simp at hop
    | none =>
      cases hb : firstErr (bodyOps env) with
      | some e1 =>
        rw [execute, if_pos h1, hs, hb]
        refine ⟨?_, by simp⟩
        intro e he
        simp only [Except.error.injEq] at he
        subst he
        refine ⟨?_, by intro _; simp, by simp [hact]⟩
        have hm := firstErr_mem hb
        simp only [injectedErrs, hs]
        exact List.mem_filterMap.mpr ⟨some e1, by simp [hm], rfl⟩
      | none =>
        cases hc : env.commitErr with
        | some e2 =>
          rw [execute, if_pos h1, hs, hb, hc]
          refine ⟨?_, by simp⟩
          intro e he
          simp only [Except.error.injEq] at he
          subst he
          refine ⟨?_, by intro _; simp, by simp [hact]⟩
          simp only [injectedErrs, hc]
          exact List.mem_filterMap.mpr ⟨some e2, by simp, rfl⟩
        | none =>
          rw [execute, if_pos h1, hs, hb, hc]
          refine ⟨by intro e he; simp at he, ?_⟩
          intro _
          simp [openedTx, h1, hs]
  · have h1f : (env.useTransaction && !env.isTransactionActive) = false := by
      revert h1
      cases env.useTransaction && !env.isTransactionActive <;> simp
    have hop : openedTx env = false := by
      rw [openedTx, h1f]
      simp
    cases hb : firstErr (bodyOps env) with
    | some e1 =>
      rw [execute, if_neg h1, hb]
      refine ⟨?_, by simp⟩
      intro e he
      simp only [Except.error.injEq] at he
      subst he
      refine ⟨?_, by simp [hop], by intro _; simp⟩
      have hm := firstErr_mem hb
      simp only [injectedErrs]
      exact List.mem_filterMap.mpr ⟨some e1, by simp [hm], rfl⟩
    | none =>
      rw [execute, if_neg h1, hb]
      refine ⟨by intro e he; simp at he, ?_⟩
      intro _
      simp [hop]

/-- Closed witness for c1_transaction_ownership: a call that opens the
transaction (useTransaction on, no active transaction, startTransaction
succeeds) and whose update query throws error 5; the theorem yields that
error 5 is propagated from an awaited operation and that a rollback is
issued. -/
theorem c1_transaction_ownership_witness :
    (5 : Nat) ∈ injectedErrs
      { useTransaction := true, callListeners := false, hasMetadata := false,
        updateEntity := false, hasWhereEntities := false, isTransactionActive := false,
        startErr := none, beforeErr := none, queryErr := some 5, updatorErr := none,
        afterErr := none, commitErr := none, rollbackErr := none } ∧
    TxAct.rollback ∈ (execute
      { useTransaction := true, callListeners := false, hasMetadata := false,
        updateEntity := false, hasWhereEntities := false, isTransactionActive := false,
        startErr := none, beforeErr := none, queryErr := some 5, updatorErr := none,
        afterErr := none, commitErr := none, rollbackErr := none }).2 :=
  ⟨((c1_transaction_ownership
      { useTransaction := true, callListeners := false, hasMetadata := false,
        updateEntity := false, hasWhereEntities := false, isTransactionActive := false,
        startErr := none, beforeErr := none, queryErr := some 5, updatorErr := none,
        afterErr := none, commitErr := none, rollbackErr := none }).1 5 rfl).1,
   ((c1_transaction_ownership
      { useTransaction := true, callListeners := false, hasMetadata := false,
        updateEntity := false, hasWhereEntities := false, isTransactionActive := false,
        startErr := none, beforeErr := none, queryErr := some 5, updatorErr := none,
        afterErr := none, commitErr := none, rollbackErr := none }).1 5 rfl).2.1 rfl⟩

end UpdateQueryBuilder

namespace MysqlQueryRunner

/-- On a released runner every operation leaves the state released, issues
no statement, and raises QueryRunnerAlreadyReleasedError, except release
itself which resolves without touching the database. -/
theorem step_released (st : RState) (op : ROp) (qErr : Option Nat)
    (h : st.isReleased = true) :
    (step st op qErr).1.isReleased = true ∧
    (step st op qErr).2.2 = [] ∧
    (step st op qErr).2.1 = (match op with
      | ROp.opRelease => Except.ok ()
      | _ => Except.error RunError.alreadyReleased) := by
  cases op <;>
    simp [step, query, insert, update, delete, createTable, dropTable, truncate,
      startTransaction, commitTransaction, rollbackTransaction, release, h]

/-- C9.  Once the runner is released, isReleased stays true across any
further sequence of operations, no statement whatsoever reaches the
database, and every operation other than release raises
QueryRunnerAlreadyReleasedError (release itself stays a successful no-op on
the database). -/
theorem c9_release_permanent (st : RState) (ops : List (ROp × Option Nat))
    (h : st.isReleased = true) :
    (runSeq st ops).1.isReleased = true ∧
    (runSeq st ops).2.1 = [] ∧
    (runSeq st ops).2.2 = ops.map (fun p =>
      match p.1 with
      | ROp.opRelease => Except.ok ()
      | _ => Except.error RunError.alreadyReleased) := by
  induction ops generalizing st with
  | nil => simpa [runSeq] using h
  | cons p rest ih =>
    obtain ⟨op, qErr⟩ := p
    obtain ⟨h1, h2, h3⟩ := step_released st op qErr h
    rcases hstep : step st op qErr with ⟨st1, r, stmts⟩
    rw [hstep] at h1 h2 h3
    simp only at h1 h2 h3
    obtain ⟨g1, g2, g3⟩ := ih st1 h1
    rw [runSeq]
    simp only [hstep]
    exact ⟨g1, by simp [h2, g2], by simp [h3, g3]⟩

/-- Closed witness for c9_release_permanent: a released runner fed a query
and a startTransaction; both raise QueryRunnerAlreadyReleasedError, nothing
reaches the database, and the runner stays released. -/
theorem c9_release_permanent_witness :
    (runSeq { isReleased := true, isTransactionActive := false }
        [(ROp.opQuery "SELECT 1", none), (ROp.opStartTransaction, none)]).1.isReleased = true ∧
    (runSeq { isReleased := true, isTransactionActive := false }
        [(ROp.opQuery "SELECT 1", none), (ROp.opStartTransaction, none)]).2.1 = [] ∧
    (runSeq { isReleased := true, isTransactionActive := false }
        [(ROp.opQuery "SELECT 1", none), (ROp.opStartTransaction, none)]).2.2 =
      ([(ROp.opQuery "SELECT 1", (none : Option Nat)), (ROp.opStartTransaction, none)]).map
        (fun p => match p.1 with
          | ROp.opRelease => Except.ok ()
          | _ => Except.error RunError.alreadyReleased) :=
  c9_release_permanent { isReleased := true, isTransactionActive := false }
    [(ROp.opQuery "SELECT 1", none), (ROp.opStartTransaction, none)] rfl

/-- C8 counterexample.  On a runner that was released while a transaction
was active (start a transaction, then release: both are legal), the state
has isTransactionActive true yet startTransaction raises
QueryRunnerAlreadyReleasedError, not TransactionAlreadyStartedError: the
claimed equivalence fails at this state. -/
theorem c8_counterexample :
    ({ isReleased := true, isTransactionActive := true } : RState).isTransactionActive = true ∧
    (startTransaction { isReleased := true, isTransactionActive := true } none).2.1 =
      Except.error RunError.alreadyReleased ∧
    ¬((startTransaction { isReleased := true, isTransactionActive := true } none).2.1 =
      Except.error RunError.alreadyStarted) := by
  refine ⟨rfl, rfl, ?_⟩
  intro hcontra
  simp [startTransaction, query] at hcontra

/-- C8 as amended.  For a runner that has not been released:
startTransaction raises TransactionAlreadyStartedError exactly when a
transaction is active, commitTransaction and rollbackTransaction raise
TransactionNotStartedError exactly when none is, and on the successful
paths startTransaction sets isTransactionActive to true while commit and
rollback reset it to false.  (A released runner raises
QueryRunnerAlreadyReleasedError from all three first.) -/
theorem c8_transition_errors (st : RState) (qErr : Option Nat)
    (h : st.isReleased = false) :
    ((startTransaction st qErr).2.1 = Except.error RunError.alreadyStarted ↔
      st.isTransactionActive = true) ∧
    ((commitTransaction st qErr).2.1 = Except.error RunError.notStarted ↔
      st.isTransactionActive = false) ∧
    ((rollbackTransaction st qErr).2.1 = Except.error RunError.notStarted ↔
      st.isTransactionActive = false) ∧
    (st.isTransactionActive = false →
      (startTransaction st none).1.isTransactionActive = true ∧
      (startTransaction st none).2.1 = Except.ok ()) ∧
    (st.isTransactionActive = true →
      (commitTransaction st none).1.isTransactionActive = false ∧
      (commitTransaction st none).2.1 = Except.ok ()) ∧
    (st.isTransactionActive = true →
      (rollbackTransaction st none).1.isTransactionActive = false ∧
      (rollbackTransaction st none).2.1 = Except.ok ()) := by
  obtain ⟨rel, act⟩ := st
  simp only at h
  subst h
  cases act <;> cases qErr <;>
    simp [startTransaction, commitTransaction, rollbackTransaction, query]

/-- Closed witness for c8_transition_errors: a live runner with an active
transaction commits successfully and isTransactionActive drops to false. -/
theorem c8_transition_errors_witness :
    (commitTransaction { isReleased := false, isTransactionActive := true } none).1.isTransactionActive = false ∧
    (commitTransaction { isReleased := false, isTransactionActive := true } none).2.1 = Except.ok () :=
  (c8_transition_errors { isReleased := false, isTransactionActive := true } none rfl).2.2.2.2.1 rfl

end MysqlQueryRunner

namespace SqliteDriver

theorem parseStrChars_append (s rest : List Char) (h : ∀ c ∈ s, ¬(c = '"')) :
    parseStrChars (s ++ '"' :: rest) = some (s, rest) := by
  induction s with
  | nil => simp [parseStrChars]
  | cons c cs ih =>
    rw [List.cons_append, parseStrChars, if_neg (h c (by simp))]
    rw [ih (fun x hx => h x (by simp [hx]))]

theorem digitChar_isDigit (d : Nat) (h : d < 10) :
    (Char.ofNat (48 + d)).isDigit = true ∧ (Char.ofNat (48 + d)).toNat = 48 + d := by
  interval_cases d <;> exact ⟨by decide, by decide⟩

theorem natDigits_ne_nil (n : Nat) : natDigits n ≠ [] := by
  rw [natDigits]
  split
  · simp
  · simp

theorem natDigits_all_digit (n : Nat) : ∀ c ∈ natDigits n, c.isDigit = true := by
  induction n using Nat.strong_induction_on with
  | _ n ih =>
    rw [natDigits]
    split
    · rename_i h
      intro c hc
      simp only [List.mem_singleton] at hc
      subst hc
      exact (digitChar_isDigit n h).1
    · rename_i h
      intro c hc
      rcases List.mem_append.mp hc with hc1 | hc2
      · exact ih (n / 10) (Nat.div_lt_self (by omega) (by omega)) c hc1
      · simp only [List.mem_singleton] at hc2
        subst hc2
        exact (digitChar_isDigit (n % 10) (Nat.mod_lt _ (by omega))).1

theorem digitsVal_append_singleton (ds : List Char) (c : Char) :
    digitsVal (ds ++ [c]) = digitsVal ds * 10 + (c.toNat - 48) := by
  simp [digitsVal, List.foldl_append]

theorem digitsVal_natDigits (n : Nat) : digitsVal (natDigits n) = n := by
  induction n using Nat.strong_induction_on with
  | _ n ih =>
    rw [natDigits]
    split
    · rename_i h
      simp [digitsVal, (digitChar_isDigit n h).2]
    · rename_i h
      rw [digitsVal_append_singleton, ih (n / 10) (Nat.div_lt_self (by omega) (by omega)),
        (digitChar_isDigit (n % 10) (Nat.mod_lt _ (by omega))).2]
      omega

theorem readDigits_append (ds rest : List Char)
    (hds : ∀ c ∈ ds, c.isDigit = true)
    (hrest : numSafeHead rest = true) :
    readDigits (ds ++ rest) = (ds, rest) := by
  induction ds with
  | nil =>
    cases rest with
    | nil => rfl
    | cons c r =>
      have hd : c.isDigit = false := by
        rw [numSafeHead] at hrest
        simpa using hrest
      rw [List.nil_append, readDigits, if_neg (by simp [hd])]
  | cons c cs ih =>
    rw [List.cons_append, readDigits, if_pos (hds c (by simp))]
    rw [ih (fun x hx => hds x (by simp [hx]))]

theorem digit_not_minus (c : Char) (h : c.isDigit = true) : ¬(c = '-') := by
  intro hc
  subst hc
  simp [Char.isDigit] at h

theorem parseNum_intChars (n : Int) (rest : List Char)
    (hrest : numSafeHead rest = true) :
    parseNum (intChars n ++ rest) = some (n, rest) := by
  by_cases hn : n < 0
  · rw [intChars, if_pos hn, List.cons_append, parseNum, if_pos rfl]
    rw [readDigits_append _ _ (natDigits_all_digit _) hrest]
    simp only [if_neg (natDigits_ne_nil n.natAbs)]
    rw [digitsVal_natDigits]
    have : ((n.natAbs : Int)) = -n := by omega
    rw [this]
    simp
  · obtain ⟨d, ds, hd⟩ : ∃ d ds, natDigits n.natAbs = d :: ds := by
      cases hnd : natDigits n.natAbs with
      | nil => exact absurd hnd (natDigits_ne_nil _)
      | cons d ds => exact ⟨d, ds, rfl⟩
    have hdig : d.isDigit = true := natDigits_all_digit n.natAbs d (by rw [hd]; simp)
    rw [intChars, if_neg hn, hd, List.cons_append, parseNum,
      if_neg (digit_not_minus d hdig)]
    rw [show d :: (ds ++ rest) = (d :: ds) ++ rest by simp, ← hd]
    rw [readDigits_append _ _ (natDigits_all_digit _) hrest]
    simp only [if_neg (natDigits_ne_nil n.natAbs)]
    rw [digitsVal_natDigits]
    have : ((n.natAbs : Int)) = n := by omega
    rw [this]

theorem digit_not_special (c : Char) (h : c.isDigit = true) :
    ¬(c = 'n') ∧ ¬(c = 't') ∧ ¬(c = 'f') ∧ ¬(c = '"') ∧ ¬(c = '[') ∧ ¬(c = lbrace) ∧
    ¬(c = ']') ∧ ¬(c = rbrace) ∧ ¬(c = ',') := by
  refine ⟨?_, ?_, ?_, ?_, ?_, ?_, ?_, ?_, ?_⟩ <;>
    (intro hc; subst hc; exact absurd h (by decide))

theorem parseVal_not_special (fuel : Nat) (c : Char) (tail : List Char)
    (h1 : ¬(c = 'n')) (h2 : ¬(c = 't')) (h3 : ¬(c = 'f')) (h4 : ¬(c = '"'))
    (h5 : ¬(c = '[')) (h6 : ¬(c = lbrace)) :
    parseVal (fuel + 1) (c :: tail) =
      match parseNum (c :: tail) with
      | some (n, r) => some (JsVal.jnum n, r)
      | none => none := by
  simp only [parseVal]
  rw [if_neg h1, if_neg h2, if_neg h3, if_neg h4, if_neg h5, if_neg h6]

theorem jsonChars_head (v : JsVal) (h : jsonSafe v = true) :
    ∃ c t, jsonChars v = c :: t ∧ ¬(c = ']') ∧ ¬(c = rbrace) ∧ ¬(c = ',') := by
  cases v with
  | undef => rw [jsonSafe] at h; exact absurd h (by decide)
  | jnull => exact ⟨'n', ['u', 'l', 'l'], by simp [jsonChars], by decide, by decide, by decide⟩
  | jbool b =>
    cases b with
    | true => exact ⟨'t', ['r', 'u', 'e'], by simp [jsonChars], by decide, by decide, by decide⟩
    | false => exact ⟨'f', ['a', 'l', 's', 'e'], by simp [jsonChars], by decide, by decide, by decide⟩
  | jnum n =>
    by_cases hn : n < 0
    · exact ⟨'-', natDigits n.natAbs, by simp [jsonChars, intChars, hn], by decide, by decide, by decide⟩
    · obtain ⟨d, ds, hd⟩ : ∃ d ds, natDigits n.natAbs = d :: ds := by
        cases hnd : natDigits n.natAbs with
        | nil => exact absurd hnd (natDigits_ne_nil _)
        | cons d ds => exact ⟨d, ds, rfl⟩
      have hdig := natDigits_all_digit n.natAbs d (by rw [hd]; simp)
      obtain ⟨_, _, _, _, _, _, g7, g8, g9⟩ := digit_not_special d hdig
      exact ⟨d, ds, by simp [jsonChars, intChars, hn, hd], g7, g8, g9⟩
  | jstr s => exact ⟨'"', s.toList ++ ['"'], by simp [jsonChars], by decide, by decide, by decide⟩
  | jarr xs => exact ⟨'[', elemsChars xs ++ [']'], by simp [jsonChars], by decide, by decide, by decide⟩
  | jobj kvs =>
    exact ⟨lbrace, fieldsChars kvs ++ [rbrace], by simp [jsonChars], by decide, by decide, by decide⟩

theorem strMk_toList (s : String) : String.mk s.toList = s := rfl

theorem jsonChars_len_pos (v : JsVal) (h : jsonSafe v = true) :
    1 ≤ (jsonChars v).length := by
  obtain ⟨c, t, hc, _⟩ := jsonChars_head v h
  rw [hc]
  simp

theorem numSafeHead_cons (c : Char) (t : List Char) (h : c.isDigit = false) :
    numSafeHead (c :: t) = true := by
  rw [numSafeHead]
  simp [h]

theorem parseVal_bracket (fuel : Nat) (d : Char) (t2 : List Char) :
    parseVal (fuel + 1) ('[' :: d :: t2) =
      (if d = ']' then some (JsVal.jarr [], t2)
       else
        match parseElems fuel (d :: t2) with
        | some (xs, r) => some (JsVal.jarr xs, r)
        | none => none) := rfl

theorem parseVal_brace (fuel : Nat) (d : Char) (t2 : List Char) :
    parseVal (fuel + 1) (lbrace :: d :: t2) =
      (if d = rbrace then some (JsVal.jobj [], t2)
       else
        match parseFields fuel (d :: t2) with
        | some (kvs, r) => some (JsVal.jobj kvs, r)
        | none => none) := rfl

theorem parse_extends (fuel : Nat) :
    (∀ v rest, jsonSafe v = true → (jsonChars v).length ≤ fuel →
      numSafeHead rest = true →
      parseVal fuel (jsonChars v ++ rest) = some (v, rest)) ∧
    (∀ xs rest, xs ≠ [] → elemsSafe xs = true → (elemsChars xs).length < fuel →
      parseElems fuel (elemsChars xs ++ ']' :: rest) = some (xs, rest)) ∧
    (∀ kvs rest, kvs ≠ [] → fieldsSafe kvs = true →
      (fieldsChars kvs).length < fuel →
      parseFields fuel (fieldsChars kvs ++ rbrace :: rest) = some (kvs, rest)) := by
  induction fuel with
  | zero =>
    refine ⟨?_, ?_, ?_⟩
    · intro v rest hs hlen _
      have := jsonChars_len_pos v hs
      omega
    · intro xs rest _ _ hlen
      omega
    · intro kvs rest _ _ hlen
      omega
  | succ f ih =>
    obtain ⟨ihv, ihe, ihf⟩ := ih
    refine ⟨?_, ?_, ?_⟩
    · intro v rest hs hlen hns
      cases v with
      | undef => rw [jsonSafe] at hs; exact absurd hs (by decide)
      | jnull =>
        show parseVal (f + 1) (['n', 'u', 'l', 'l'] ++ rest) = some (JsVal.jnull, rest)
        simp [parseVal]
      | jbool b =>
        cases b with
        | true =>
          show parseVal (f + 1) (['t', 'r', 'u', 'e'] ++ rest) =
            some (JsVal.jbool true, rest)
          simp [parseVal]
        | false =>
          show parseVal (f + 1) (['f', 'a', 'l', 's', 'e'] ++ rest) =
            some (JsVal.jbool false, rest)
          simp [parseVal]
      | jnum n =>
        show parseVal (f + 1) (intChars n ++ rest) = some (JsVal.jnum n, rest)
        by_cases hn : n < 0
        · rw [intChars, if_pos hn, List.cons_append]
          rw [parseVal_not_special f '-' _ (by decide) (by decide) (by decide)
            (by decide) (by decide) (by decide)]
          rw [show '-' :: (natDigits n.natAbs ++ rest) = intChars n ++ rest by
            rw [intChars, if_pos hn, List.cons_append]]
          rw [parseNum_intChars n rest hns]
        · obtain ⟨d, ds, hd⟩ : ∃ d ds, natDigits n.natAbs = d :: ds := by
            cases hnd : natDigits n.natAbs with
            | nil => exact absurd hnd (natDigits_ne_nil _)
            | cons d ds => exact ⟨d, ds, rfl⟩
          have hdig := natDigits_all_digit n.natAbs d (by rw [hd]; simp)
          obtain ⟨g1, g2, g3, g4, g5, g6, _, _, _⟩ := digit_not_special d hdig
          rw [intChars, if_neg hn, hd, List.cons_append]
          rw [parseVal_not_special f d _ g1 g2 g3 g4 g5 g6]
          rw [show d :: (ds ++ rest) = intChars n ++ rest by
            rw [intChars, if_neg hn, hd, List.cons_append]]
          rw [parseNum_intChars n rest hns]
      | jstr s =>
        have hsq : ∀ c ∈ s.toList, ¬(c = '"') := by
          rw [jsonSafe, strSafe] at hs
          intro c hc hq
          have := List.all_eq_true.mp hs c hc
          subst hq
          simp at this
        show parseVal (f + 1) (('"' :: s.toList ++ ['"']) ++ rest) =
          some (JsVal.jstr s, rest)
        simp only [List.cons_append, List.append_assoc, List.singleton_append]
        simp [parseVal]
        rw [parseStrChars_append s.data rest hsq]
      | jarr xs =>
        cases xs with
        | nil =>
          show parseVal (f + 1) (('[' :: elemsChars [] ++ [']']) ++ rest) =
            some (JsVal.jarr [], rest)
          simp [parseVal, elemsChars]
        | cons x r =>
          have hse : elemsSafe (x :: r) = true := by rw [jsonSafe] at hs; exact hs
          have hx : jsonSafe x = true := by
            have h2 := hse
            rw [elemsSafe, Bool.and_eq_true] at h2
            exact h2.1
          obtain ⟨c0, t0, hc0, hne1, _, _⟩ := jsonChars_head x hx
          obtain ⟨t1, ht1⟩ : ∃ t1, elemsChars (x :: r) = c0 :: t1 := by
            cases r with
            | nil => exact ⟨t0, by rw [elemsChars, hc0]⟩
            | cons y r2 =>
              exact ⟨t0 ++ ',' :: elemsChars (y :: r2), by
                rw [elemsChars, hc0, List.cons_append]⟩
          have hlen2 : (elemsChars (x :: r)).length < f := by
            have : (jsonChars (JsVal.jarr (x :: r))).length =
                (elemsChars (x :: r)).length + 2 := by
              simp [jsonChars]
            omega
          show parseVal (f + 1) (('[' :: elemsChars (x :: r) ++ [']']) ++ rest) =
            some (JsVal.jarr (x :: r), rest)
          rw [show ('[' :: elemsChars (x :: r) ++ [']']) ++ rest =
              '[' :: c0 :: (t1 ++ ']' :: rest) by rw [ht1]; simp]
          rw [parseVal_bracket f c0 (t1 ++ ']' :: rest), if_neg hne1]
          rw [show c0 :: (t1 ++ ']' :: rest) = elemsChars (x :: r) ++ ']' :: rest by
            rw [ht1, List.cons_append]]
          rw [ihe (x :: r) rest (by simp) hse hlen2]
      | jobj kvs =>
        cases kvs with
        | nil =>
          show parseVal (f + 1) ((lbrace :: fieldsChars [] ++ [rbrace]) ++ rest) =
            some (JsVal.jobj [], rest)
          simp only [fieldsChars, List.nil_append, List.cons_append,
            List.singleton_append]
          simp [parseVal, lbrace, rbrace]
        | cons kv r =>
          obtain ⟨k, v⟩ := kv
          have hse : fieldsSafe ((k, v) :: r) = true := by rw [jsonSafe] at hs; exact hs
          obtain ⟨t1, ht1⟩ : ∃ t1, fieldsChars ((k, v) :: r) = '"' :: t1 := by
            cases r with
            | nil => exact ⟨k.toList ++ '"' :: ':' :: jsonChars v, by rw [fieldsChars]; simp⟩
            | cons g r2 =>
              exact ⟨k.toList ++ '"' :: ':' :: jsonChars v ++ ',' :: fieldsChars (g :: r2),
                by rw [fieldsChars]; simp⟩
          have hlen2 : (fieldsChars ((k, v) :: r)).length < f := by
            have : (jsonChars (JsVal.jobj ((k, v) :: r))).length =
                (fieldsChars ((k, v) :: r)).length + 2 := by
              simp [jsonChars]
            omega
          show parseVal (f + 1) ((lbrace :: fieldsChars ((k, v) :: r) ++ [rbrace]) ++ rest) =
            some (JsVal.jobj ((k, v) :: r), rest)
          rw [show (lbrace :: fieldsChars ((k, v) :: r) ++ [rbrace]) ++ rest =
              lbrace :: '"' :: (t1 ++ rbrace :: rest) by rw [ht1]; simp]
          rw [parseVal_brace f '"' (t1 ++ rbrace :: rest),
            if_neg (show ¬(('"' : Char) = rbrace) by decide)]
          rw [show '"' :: (t1 ++ rbrace :: rest) = fieldsChars ((k, v) :: r) ++ rbrace :: rest by
            rw [ht1, List.cons_append]]
          rw [ihf ((k, v) :: r) rest (by simp) hse hlen2]
    · intro xs rest hne hsafe hlen
      cases xs with
      | nil => exact absurd rfl hne
      | cons x r =>
        cases r with
        | nil =>
          have h2 := hsafe
          rw [elemsSafe, Bool.and_eq_true] at h2
          have hx : jsonSafe x = true := h2.1
          have hlx : (jsonChars x).length ≤ f := by
            rw [elemsChars] at hlen
            omega
          rw [elemsChars]
          simp only [parseElems]
          rw [ihv x (']' :: rest) hx hlx (numSafeHead_cons _ _ (by decide))]
          rfl
        | cons y r2 =>
          have h2 := hsafe
          rw [elemsSafe, Bool.and_eq_true] at h2
          obtain ⟨hx, hys⟩ := h2
          have hlenx := jsonChars_len_pos x hx
          have hlens : (elemsChars (x :: y :: r2)).length =
              (jsonChars x).length + 1 + (elemsChars (y :: r2)).length := by
            rw [elemsChars]
            simp
            omega
          rw [elemsChars, List.append_assoc, List.cons_append]
          simp only [parseElems]
          rw [ihv x (',' :: (elemsChars (y :: r2) ++ ']' :: rest)) hx (by omega)
            (numSafeHead_cons _ _ (by decide))]
          show (match parseElems f (elemsChars (y :: r2) ++ ']' :: rest) with
            | some (vs, r3) => some (x :: vs, r3)
            | none => none) = some (x :: y :: r2, rest)
          rw [ihe (y :: r2) rest (by simp) hys (by omega)]
    · intro kvs rest hne hsafe hlen
      cases kvs with
      | nil => exact absurd rfl hne
      | cons kv r =>
        obtain ⟨k, v⟩ := kv
        have h2 := hsafe
        rw [fieldsSafe, Bool.and_eq_true, Bool.and_eq_true] at h2
        obtain ⟨⟨hk, hv⟩, hrs⟩ := h2
        have hkq : ∀ c ∈ k.toList, ¬(c = '"') := by
          rw [strSafe] at hk
          intro c hc hq
          have := List.all_eq_true.mp hk c hc
          subst hq
          simp at this
        cases r with
        | nil =>
          have hlv : (jsonChars v).length ≤ f := by
            have : (fieldsChars [(k, v)]).length =
                k.toList.length + 3 + (jsonChars v).length := by
              rw [fieldsChars]
              simp
              omega
            omega
          rw [fieldsChars]
          simp only [List.cons_append, List.append_assoc]
          simp only [parseFields]
          rw [parseStrChars_append k.toList _ hkq]
          show (match parseVal f (jsonChars v ++ rbrace :: rest) with
            | some (v1, r3) =>
              match r3 with
              | [] => none
              | d :: r4 =>
                if d = ',' then
                  match parseFields f r4 with
                  | some (kvs, r5) => some ((String.mk k.toList, v1) :: kvs, r5)
                  | none => none
                else if d = rbrace then some ([(String.mk k.toList, v1)], r4)
                else none
            | none => none) = some ([(k, v)], rest)
          rw [ihv v (rbrace :: rest) hv hlv (numSafeHead_cons _ _ (by decide))]
          rfl
        | cons g r2 =>
          have hlenv := jsonChars_len_pos v hv
          have hlens : (fieldsChars ((k, v) :: g :: r2)).length =
              k.toList.length + 3 + (jsonChars v).length + 1 +
                (fieldsChars (g :: r2)).length := by
            rw [fieldsChars]
            simp
            omega
          rw [fieldsChars]
          simp only [List.cons_append, List.append_assoc]
          simp only [parseFields]
          rw [parseStrChars_append k.toList _ hkq]
          show (match parseVal f (jsonChars v ++ ',' :: (fieldsChars (g :: r2) ++ rbrace :: rest)) with
            | some (v1, r3) =>
              match r3 with
              | [] => none
              | d :: r4 =>
                if d = ',' then
                  match parseFields f r4 with
                  | some (kvs, r5) => some ((String.mk k.toList, v1) :: kvs, r5)
                  | none => none
                else if d = rbrace then some ([(String.mk k.toList, v1)], r4)
                else none
            | none => none) = some ((k, v) :: g :: r2, rest)
          rw [ihv v (',' :: (fieldsChars (g :: r2) ++ rbrace :: rest)) hv (by omega)
            (numSafeHead_cons _ _ (by decide))]
          show (match parseFields f (fieldsChars (g :: r2) ++ rbrace :: rest) with
            | some (kvs, r5) => some ((String.mk k.toList, v) :: kvs, r5)
            | none => none) = some ((k, v) :: g :: r2, rest)
          rw [ihf (g :: r2) rest (by simp) hrs (by omega)]
          rfl

end SqliteDriver

namespace SqliteDriver

/-- The modelled JSON.parse inverts the modelled JSON.stringify on the safe
fragment. -/
theorem jsonParse_stringify (v : JsVal) (h : jsonSafe v = true) :
    jsonParse (jsonStringify v) = some v := by
  rw [jsonStringify, jsonParse]
  rw [show (String.mk (jsonChars v)).toList = jsonChars v from rfl]
  have hp := (parse_extends ((jsonChars v).length + 1)).1 v [] h (by omega) rfl
  rw [List.append_nil] at hp
  rw [hp]

theorem hydrate_persist_json (v : JsVal) (h : jsonSafe v = true)
    (hpv : preparePersistentValue v ColType.json = JsVal.jstr (jsonStringify v)) :
    prepareHydratedValue (preparePersistentValue v ColType.json) ColType.json =
      Except.ok v := by
  rw [hpv]
  show (match jsonParse (jsonStringify v) with
    | some j => Except.ok j
    | none => Except.error "JSON.parse: unexpected end of input") = Except.ok v
  rw [jsonParse_stringify v h]

/-- C10.  Driver value conversion round-trips for boolean columns: true is
persisted as 1 and hydrated back to true, false as 0 and back to false, so
prepareHydratedValue inverts preparePersistentValue on booleans; the
analogous round-trip holds for json columns through JSON.stringify and
JSON.parse on every JSON-serializable value of the modelled fragment. -/
theorem c10_value_conversion_roundtrip :
    (∀ b : Bool,
      preparePersistentValue (JsVal.jbool b) ColType.boolean =
        JsVal.jnum (if b then 1 else 0) ∧
      prepareHydratedValue (preparePersistentValue (JsVal.jbool b) ColType.boolean)
        ColType.boolean = Except.ok (JsVal.jbool b)) ∧
    (∀ v : JsVal, jsonSafe v = true →
      prepareHydratedValue (preparePersistentValue v ColType.json) ColType.json =
        Except.ok v) := by
  constructor
  · intro b
    cases b with
    | true => exact ⟨rfl, rfl⟩
    | false => exact ⟨rfl, rfl⟩
  · intro v hv
    cases v with
    | undef => rw [jsonSafe] at hv; exact absurd hv (by decide)
    | jnull => rfl
    | jbool b => exact hydrate_persist_json _ hv rfl
    | jnum n => exact hydrate_persist_json _ hv rfl
    | jstr s => exact hydrate_persist_json _ hv rfl
    | jarr xs => exact hydrate_persist_json _ hv rfl
    | jobj kvs => exact hydrate_persist_json _ hv rfl

/-- Closed witness for c10_value_conversion_roundtrip: a concrete object
value round-trips through the json column conversions, and true
round-trips through the boolean column conversions. -/
theorem c10_value_conversion_roundtrip_witness :
    jsonSafe (JsVal.jobj [("a", JsVal.jarr [JsVal.jnum (-3), JsVal.jnull])]) = true ∧
    prepareHydratedValue
        (preparePersistentValue
          (JsVal.jobj [("a", JsVal.jarr [JsVal.jnum (-3), JsVal.jnull])]) ColType.json)
        ColType.json =
      Except.ok (JsVal.jobj [("a", JsVal.jarr [JsVal.jnum (-3), JsVal.jnull])]) ∧
    prepareHydratedValue (preparePersistentValue (JsVal.jbool true) ColType.boolean)
        ColType.boolean = Except.ok (JsVal.jbool true) :=
  ⟨rfl,
   c10_value_conversion_roundtrip.2
     (JsVal.jobj [("a", JsVal.jarr [JsVal.jnum (-3), JsVal.jnull])]) rfl,
   (c10_value_conversion_roundtrip.1 true).2⟩

end SqliteDriver
